import Mathlib

/-!
Verification development for the poems app (React Native / TypeScript).

The file shallowly embeds the two data structures the specification talks
about:

* the Bounded Sliding Window over the local corpus
  (`createRandomWindow` / `slideWindow` in `src/lib/poetry-api.ts`), and
* the virtual slot array with its fill and cleanup passes
  (`initVirtualSlots`, `loadPoemsIntoSlots`, `cleanupDistantSlots`,
  `handlePageSelected` in `src/App.tsx`).

JavaScript numbers that take part in index arithmetic are modelled as `Int`
(they can go negative in the source); list-valued database reads
(`getPoemsPage`, `getRandomPoems`, remote fetches) are modelled as pure
functions of the corpus plus injected oracles for randomness and network
outcomes, following the spec's own design note that the random source is
injected.
-/

/-- A row of the local poems table / an item of the pool.  Identifiers are
opaque and only compared for equality; local rows carry SQLite integer ids,
synthesized remote ids are injected through an oracle (see `FetchEnv`), so
the id space is modelled as `Int`. -/
structure Poem where
  id : Int
  title : String
  author : String
  content : String
deriving DecidableEq, Repr

/-- getPoemsPage from src/lib/poems.ts: SELECT * FROM poems LIMIT ? OFFSET ?.
SQLite treats a negative OFFSET as 0, which `Int.toNat` matches; LIMIT is the
positive constant 21 at every call site reached from the window code. -/
def getPoemsPage (corpus : List Poem) (offset limit : Int) : List Poem :=
  (corpus.drop offset.toNat).take limit.toNat

/-- getTotalPoemsCount from src/lib/poems.ts: SELECT COUNT(*) FROM poems. -/
def getTotalPoemsCount (corpus : List Poem) : Int :=
  (corpus.length : Int)

/-- WINDOW_SIZE from src/lib/poetry-api.ts. -/
def WINDOW_SIZE : Int := 21

/-- BUFFER_SIZE from src/lib/poetry-api.ts. -/
def BUFFER_SIZE : Int := 10

/-- PoemWindow from src/lib/poetry-api.ts. -/
structure PoemWindow where
  poems : List Poem
  currentIndex : Int
  globalIndex : Int
  totalCount : Int
  windowStart : Int
deriving DecidableEq, Repr

/-- The direction argument of slideWindow. -/
inductive SlideDirection where
  | next
  | prev
deriving DecidableEq, Repr

/-- createRandomWindow from src/lib/poetry-api.ts.  The source draws
Math.floor(Math.random() * Math.max(1, totalCount - WINDOW_SIZE)), a uniform
value in [0, max(1, totalCount - 21)); the random source is injected as a
natural number `r` reduced modulo the same bound, which ranges over exactly
the same values. -/
def createRandomWindow (corpus : List Poem) (r : Nat) : PoemWindow :=
  let totalCount := getTotalPoemsCount corpus
  let randomStart := (r : Int) % max 1 (totalCount - WINDOW_SIZE)
  { poems := getPoemsPage corpus randomStart WINDOW_SIZE
    currentIndex := BUFFER_SIZE
    globalIndex := randomStart + BUFFER_SIZE
    totalCount := totalCount
    windowStart := randomStart }

/-- slideWindow from src/lib/poetry-api.ts, lines 371-420, translated
branch for branch.  The corpus is passed explicitly because the reload
branches re-read a page from the database. -/
def slideWindow (corpus : List Poem) (w : PoemWindow) (direction : SlideDirection) : PoemWindow :=
  match direction with
  | .next =>
    if WINDOW_SIZE - BUFFER_SIZE - 1 ≤ w.currentIndex then
      let newWindowStart := min (w.totalCount - WINDOW_SIZE) (w.windowStart + BUFFER_SIZE)
      { poems := getPoemsPage corpus newWindowStart WINDOW_SIZE
        currentIndex := w.currentIndex - BUFFER_SIZE
        globalIndex := w.globalIndex + 1
        totalCount := w.totalCount
        windowStart := newWindowStart }
    else
      { w with
        currentIndex := min (w.currentIndex + 1) (WINDOW_SIZE - 1)
        globalIndex := min (w.globalIndex + 1) (w.totalCount - 1) }
  | .prev =>
    if w.currentIndex ≤ BUFFER_SIZE then
      let newWindowStart := max 0 (w.windowStart - BUFFER_SIZE)
      { poems := getPoemsPage corpus newWindowStart WINDOW_SIZE
        currentIndex := w.currentIndex + BUFFER_SIZE
        globalIndex := w.globalIndex - 1
        totalCount := w.totalCount
        windowStart := newWindowStart }
    else
      { w with
        currentIndex := max (w.currentIndex - 1) 0
        globalIndex := max (w.globalIndex - 1) 0 }

/-- Iterated sliding in one direction. -/
def slideN (corpus : List Poem) (d : SlideDirection) : Nat → PoemWindow → PoemWindow
  | 0, w => w
  | n + 1, w => slideN corpus d n (slideWindow corpus w d)

/-- The slide('next') step applied to `w` hits no corpus-edge clamp: in the
reload branch the min against totalCount - WINDOW_SIZE keeps the unclamped
argument, in the in-window branch the min against totalCount - 1 does. -/
def noCorpusClampNext (w : PoemWindow) : Prop :=
  (WINDOW_SIZE - BUFFER_SIZE - 1 ≤ w.currentIndex →
      w.windowStart + BUFFER_SIZE ≤ w.totalCount - WINDOW_SIZE) ∧
  (w.currentIndex < WINDOW_SIZE - BUFFER_SIZE - 1 →
      w.globalIndex + 1 ≤ w.totalCount - 1)

/-- The slide('prev') step applied to `w` hits no corpus-edge clamp (the
max-with-0 sites keep the unclamped argument). -/
def noCorpusClampPrev (w : PoemWindow) : Prop :=
  (w.currentIndex ≤ BUFFER_SIZE → BUFFER_SIZE ≤ w.windowStart) ∧
  (BUFFER_SIZE < w.currentIndex → 1 ≤ w.globalIndex)

/-- No corpus-edge clamp fires in a slide step in direction `d`. -/
def noCorpusClamp (w : PoemWindow) : SlideDirection → Prop
  | .next => noCorpusClampNext w
  | .prev => noCorpusClampPrev w

/-- No corpus-edge clamp fires anywhere along a run of `n` slides in
direction `d` starting at `w`. -/
def NoClampRun (corpus : List Poem) (d : SlideDirection) : Nat → PoemWindow → Prop
  | 0, _ => True
  | n + 1, w => noCorpusClamp w d ∧ NoClampRun corpus d n (slideWindow corpus w d)

instance (w : PoemWindow) : (d : SlideDirection) → Decidable (noCorpusClamp w d)
  | .next => inferInstanceAs (Decidable (_ ∧ _))
  | .prev => inferInstanceAs (Decidable (_ ∧ _))

instance instDecNoClampRun (corpus : List Poem) (d : SlideDirection) :
    (n : Nat) → (w : PoemWindow) → Decidable (NoClampRun corpus d n w)
  | 0, _ => .isTrue trivial
  | n + 1, w =>
    have : Decidable (NoClampRun corpus d n (slideWindow corpus w d)) :=
      instDecNoClampRun corpus d n _
    inferInstanceAs (Decidable (_ ∧ _))

/-- A concrete mid-corpus window (corpusTotal 100, windowStart 50,
localIndex 5), used to instantiate universally quantified theorems. -/
def sampleWindowAt5 : PoemWindow :=
  { poems := [], currentIndex := 5, globalIndex := 55, totalCount := 100, windowStart := 50 }

/-- A concrete mid-corpus window with localIndex 15 (above the prev-reload
threshold), used to instantiate universally quantified theorems. -/
def sampleWindowAt15 : PoemWindow :=
  { poems := [], currentIndex := 15, globalIndex := 65, totalCount := 100, windowStart := 50 }

/-- A concrete window sitting exactly on the next-reload threshold
(localIndex 10), as created at windowStart 50 over a 100-poem corpus. -/
def sampleWindowAt10 : PoemWindow :=
  { poems := [], currentIndex := 10, globalIndex := 60, totalCount := 100, windowStart := 50 }

/-- A deterministic corpus of `n` poems with ids 0..n-1, used for concrete
evaluations. -/
def mkCorpus (n : Nat) : List Poem :=
  (List.range n).map fun i => { id := (i : Int), title := "t", author := "a", content := "c" }

/-- A 100-poem corpus (the corpusTotal = 100 scenario of the spec). -/
def corpus100 : List Poem := mkCorpus 100

/-- A 21-poem corpus (the smallest corpus that fills a whole window). -/
def corpus21 : List Poem := mkCorpus 21

/-- A slide in either direction adds 1 to or subtracts 1 from globalIndex
whenever its corpus-edge clamps do not fire. -/
theorem slideWindow_globalIndex_step (corpus : List Poem) (w : PoemWindow) :
    (noCorpusClampNext w →
      (slideWindow corpus w .next).globalIndex = w.globalIndex + 1) ∧
    (noCorpusClampPrev w →
      (slideWindow corpus w .prev).globalIndex = w.globalIndex - 1) := by
  constructor
  · intro h
    by_cases hc : WINDOW_SIZE - BUFFER_SIZE - 1 ≤ w.currentIndex
    · simp only [slideWindow, if_pos hc]
    · have h2 := h.2 (by unfold WINDOW_SIZE BUFFER_SIZE at hc ⊢; omega)
      simp only [slideWindow, if_neg hc]
      omega
  · intro h
    by_cases hc : w.currentIndex ≤ BUFFER_SIZE
    · simp only [slideWindow, if_pos hc]
    · have h2 := h.2 (by omega)
      simp only [slideWindow, if_neg hc]
      omega

/-- Along a clamp-free run of next-slides the globalIndex advances by
exactly the number of slides. -/
theorem slideN_next_globalIndex (corpus : List Poem) :
    ∀ (n : Nat) (w : PoemWindow), NoClampRun corpus .next n w →
      (slideN corpus .next n w).globalIndex = w.globalIndex + n := by
  intro n
  induction n with
  | zero => intro w _; simp [slideN]
  | succ n ih =>
    intro w h
    have hstep := (slideWindow_globalIndex_step corpus w).1 h.1
    have htail := ih (slideWindow corpus w .next) h.2
    simp only [slideN] at htail ⊢
    rw [htail, hstep]
    omega

/-- Along a clamp-free run of prev-slides the globalIndex recedes by
exactly the number of slides. -/
theorem slideN_prev_globalIndex (corpus : List Poem) :
    ∀ (n : Nat) (w : PoemWindow), NoClampRun corpus .prev n w →
      (slideN corpus .prev n w).globalIndex = w.globalIndex - n := by
  intro n
  induction n with
  | zero => intro w _; simp [slideN]
  | succ n ih =>
    intro w h
    have hstep := (slideWindow_globalIndex_step corpus w).2 h.1
    have htail := ih (slideWindow corpus w .prev) h.2
    simp only [slideN] at htail ⊢
    rw [htail, hstep]
    omega

/-- C8: for every window w and every N such that no corpus-edge clamping
occurs during the run, N slide('next') calls followed by N slide('prev')
calls restore the original globalIndex. -/
theorem c8_slide_roundtrip_globalIndex (corpus : List Poem) (w : PoemWindow) (N : Nat)
    (hnext : NoClampRun corpus .next N w)
    (hprev : NoClampRun corpus .prev N (slideN corpus .next N w)) :
    (slideN corpus .prev N (slideN corpus .next N w)).globalIndex = w.globalIndex := by
  have h1 := slideN_next_globalIndex corpus N w hnext
  have h2 := slideN_prev_globalIndex corpus N (slideN corpus .next N w) hprev
  rw [h2, h1]
  omega

/-- Witness for C8 at a concrete window and N = 1 (the prev step even
reloads, exercising the reload branch). -/
theorem c8_slide_roundtrip_globalIndex_witness :
    (slideN [] .prev 1 (slideN [] .next 1 sampleWindowAt5)).globalIndex =
      sampleWindowAt5.globalIndex :=
  c8_slide_roundtrip_globalIndex [] sampleWindowAt5 1 (by decide) (by decide)

/-- Helper: every branch of slideWindow copies totalCount from the input. -/
theorem slideWindow_totalCount (corpus : List Poem) (w : PoemWindow) (d : SlideDirection) :
    (slideWindow corpus w d).totalCount = w.totalCount := by
  cases d <;> simp only [slideWindow] <;> split <;> rfl

/-- C2 counterexample: starting from the window createRandomWindow builds at
windowStart = 50 over a 100-poem corpus, a single slide('next') takes the
reload branch and leaves globalIndex = 61 while windowStart + currentIndex =
60 + 0, so the invariant globalIndex = windowStart + localIndex does not
survive sliding. -/
theorem c2_invariant_cex :
    (slideWindow corpus100 (createRandomWindow corpus100 50) .next).globalIndex ≠
      (slideWindow corpus100 (createRandomWindow corpus100 50) .next).windowStart +
        (slideWindow corpus100 (createRandomWindow corpus100 50) .next).currentIndex := by
  decide

/-- C2 amended: globalIndex = windowStart + localIndex holds for every
window produced by createRandomWindow, and is preserved by in-window
(non-reload) slides as long as the corpus-edge clamp on globalIndex does not
fire; a reload slide breaks it (see the counterexample), so it is not an
invariant of arbitrary slide sequences. -/
theorem c2_invariant_amended :
    (∀ (corpus : List Poem) (r : Nat),
      (createRandomWindow corpus r).globalIndex =
        (createRandomWindow corpus r).windowStart + (createRandomWindow corpus r).currentIndex) ∧
    (∀ (corpus : List Poem) (w : PoemWindow),
      w.currentIndex < WINDOW_SIZE - BUFFER_SIZE - 1 → 0 ≤ w.currentIndex →
      w.globalIndex + 1 ≤ w.totalCount - 1 →
      w.globalIndex = w.windowStart + w.currentIndex →
      (slideWindow corpus w .next).globalIndex =
        (slideWindow corpus w .next).windowStart + (slideWindow corpus w .next).currentIndex) ∧
    (∀ (corpus : List Poem) (w : PoemWindow),
      BUFFER_SIZE < w.currentIndex → 1 ≤ w.globalIndex →
      w.globalIndex = w.windowStart + w.currentIndex →
      (slideWindow corpus w .prev).globalIndex =
        (slideWindow corpus w .prev).windowStart + (slideWindow corpus w .prev).currentIndex) := by
  refine ⟨fun corpus r => ?_, fun corpus w h1 h2 h3 h4 => ?_, fun corpus w h1 h2 h3 => ?_⟩
  · simp [createRandomWindow]
  · simp only [WINDOW_SIZE, BUFFER_SIZE] at h1
    simp only [slideWindow, WINDOW_SIZE, BUFFER_SIZE]
    split <;> dsimp only <;> omega
  · simp only [BUFFER_SIZE] at h1
    simp only [slideWindow, WINDOW_SIZE, BUFFER_SIZE]
    split <;> dsimp only <;> omega

/-- Witness for C2 amended: all three conjuncts instantiated at concrete
windows over concrete corpora. -/
theorem c2_invariant_amended_witness :
    ((createRandomWindow corpus100 3).globalIndex =
        (createRandomWindow corpus100 3).windowStart + (createRandomWindow corpus100 3).currentIndex) ∧
    ((slideWindow [] sampleWindowAt5 .next).globalIndex =
        (slideWindow [] sampleWindowAt5 .next).windowStart +
          (slideWindow [] sampleWindowAt5 .next).currentIndex) ∧
    ((slideWindow [] sampleWindowAt15 .prev).globalIndex =
        (slideWindow [] sampleWindowAt15 .prev).windowStart +
          (slideWindow [] sampleWindowAt15 .prev).currentIndex) :=
  ⟨c2_invariant_amended.1 corpus100 3,
   c2_invariant_amended.2.1 [] sampleWindowAt5 (by decide) (by decide) (by decide) (by decide),
   c2_invariant_amended.2.2 [] sampleWindowAt15 (by decide) (by decide) (by decide)⟩

/-- C3 counterexample: in the corpusTotal = 100, windowStart = 50 scenario,
one slide('next') does not stay in the window: currentIndex 10 already
triggers the reload branch, so the claimed outcome localIndex = 11 with
windowStart unchanged is false. -/
theorem c3_scenario_cex :
    ¬ ((slideWindow corpus100 (createRandomWindow corpus100 50) .next).currentIndex = 11 ∧
       (slideWindow corpus100 (createRandomWindow corpus100 50) .next).windowStart = 50) := by
  decide

/-- C3 amended: with corpusTotal = 100 and the window created at
windowStart = 50 (covering global positions 50..70, localIndex = 10,
globalIndex = 60), a single slide('next') triggers a reload: windowStart
becomes min(100 - 21, 50 + 10) = 60, localIndex drops to 0, and globalIndex
advances to 61. -/
theorem c3_scenario_amended :
    (createRandomWindow corpus100 50).currentIndex = 10 ∧
    (createRandomWindow corpus100 50).globalIndex = 60 ∧
    (createRandomWindow corpus100 50).windowStart = 50 ∧
    (createRandomWindow corpus100 50).poems = (corpus100.drop 50).take 21 ∧
    (slideWindow corpus100 (createRandomWindow corpus100 50) .next).currentIndex = 0 ∧
    (slideWindow corpus100 (createRandomWindow corpus100 50) .next).globalIndex = 61 ∧
    (slideWindow corpus100 (createRandomWindow corpus100 50) .next).windowStart = 60 := by
  decide

/-- C4 counterexample: over an empty corpus (corpusTotal = 0, a value the
claim admits), the window createRandomWindow returns has windowStart = 0,
but one slide('next') takes the reload branch and sets windowStart =
min(0 - 21, 0 + 10) = -21, violating 0 ≤ windowStart. -/
theorem c4_bounded_window_cex :
    (slideWindow [] (createRandomWindow [] 0) .next).windowStart = -21 := by
  decide

/-- C4 amended: when corpusTotal ≥ 21, createRandomWindow establishes
0 ≤ windowStart ≤ corpusTotal - 21 and every slide in either direction
preserves it (so no out-of-range page is requested); for corpusTotal < 21
the bound fails, e.g. one slide('next') over an empty corpus sets
windowStart = -21. -/
theorem c4_bounded_window_amended :
    (∀ (corpus : List Poem) (r : Nat), 21 ≤ (corpus.length : Int) →
      0 ≤ (createRandomWindow corpus r).windowStart ∧
      (createRandomWindow corpus r).windowStart ≤ (createRandomWindow corpus r).totalCount - 21) ∧
    (∀ (corpus : List Poem) (w : PoemWindow) (d : SlideDirection),
      21 ≤ w.totalCount → 0 ≤ w.windowStart → w.windowStart ≤ w.totalCount - 21 →
      0 ≤ (slideWindow corpus w d).windowStart ∧
      (slideWindow corpus w d).windowStart ≤ (slideWindow corpus w d).totalCount - 21) := by
  constructor
  · intro corpus r h
    have hpos : 0 < max 1 ((corpus.length : Int) - WINDOW_SIZE) := by
      omega
    have hlo : 0 ≤ (r : Int) % max 1 ((corpus.length : Int) - WINDOW_SIZE) :=
      Int.emod_nonneg _ (by omega)
    have hhi : (r : Int) % max 1 ((corpus.length : Int) - WINDOW_SIZE) <
        max 1 ((corpus.length : Int) - WINDOW_SIZE) := Int.emod_lt_of_pos _ hpos
    simp only [createRandomWindow, getTotalPoemsCount]
    simp only [WINDOW_SIZE] at hlo hhi h ⊢
    omega
  · intro corpus w d h1 h2 h3
    cases d <;> simp only [slideWindow, WINDOW_SIZE, BUFFER_SIZE] <;> split <;>
      dsimp only <;> omega

/-- Witness for C4 amended: both conjuncts at concrete inputs (a 21-poem
corpus for creation; a window over a 100-poem total for the slide). -/
theorem c4_bounded_window_amended_witness :
    (0 ≤ (createRandomWindow corpus21 0).windowStart ∧
      (createRandomWindow corpus21 0).windowStart ≤ (createRandomWindow corpus21 0).totalCount - 21) ∧
    (0 ≤ (slideWindow [] sampleWindowAt10 .next).windowStart ∧
      (slideWindow [] sampleWindowAt10 .next).windowStart ≤
        (slideWindow [] sampleWindowAt10 .next).totalCount - 21) :=
  ⟨c4_bounded_window_amended.1 corpus21 0 (by decide),
   c4_bounded_window_amended.2 [] sampleWindowAt10 .next (by decide) (by decide) (by decide)⟩

/-- C5 counterexample: with a corpus of zero items, createRandomWindow does
not fail; it returns a degenerate window (empty poems list, windowStart 0,
localIndex 10, globalIndex 10, totalCount 0) instead of surfacing an error
to the caller.  The source has no throw site on this path: getPoemsPage
simply returns zero rows. -/
theorem c5_empty_corpus_cex :
    createRandomWindow [] 0 =
      { poems := [], currentIndex := 10, globalIndex := 10,
        totalCount := 0, windowStart := 0 } := by
  decide

/-- C5 amended: window creation over an empty local corpus succeeds for
every random draw, always returning the same degenerate window (poems = [],
localIndex = 10, globalIndex = 10, corpusTotal = 0, windowStart = 0); no
error surfaces, and the spec's own edge-case rule makes corpusTotal = 0 a
case the caller must guard explicitly. -/
theorem c5_empty_corpus_amended (r : Nat) :
    createRandomWindow [] r =
      { poems := [], currentIndex := 10, globalIndex := 10,
        totalCount := 0, windowStart := 0 } := by
  simp [createRandomWindow, getTotalPoemsCount, getPoemsPage, WINDOW_SIZE, BUFFER_SIZE,
    Int.emod_one]

/-- C10: slideWindow never refreshes the corpus total recorded at window
creation: the returned window carries the input's totalCount, in every
branch and both directions.  (In the embedding the input window is a pure
value, matching the source, which builds a fresh object in every branch and
never assigns to the input.) -/
theorem c10_slideWindow_preserves_totalCount (corpus : List Poem) (w : PoemWindow)
    (d : SlideDirection) : (slideWindow corpus w d).totalCount = w.totalCount :=
  slideWindow_totalCount corpus w d

/-! ## Virtual slot array (src/App.tsx)

The state of the App component that the claims concern: the slot array,
the pool (availablePoems), the dedup set (usedPoemIds), and the adapter
flags.  Fill passes (loadPoemsIntoSlots) and cleanup passes
(cleanupDistantSlots) are modelled as pure state transformers; each
database or network read a pass performs is supplied by an injected
`FetchEnv` oracle, and the synthesized ids of remote poems (Date.now-based
strings in the source) are injected through the oracle's `synthIds`
function.  JavaScript Sets keyed by ids are modelled as insertion-ordered
duplicate-free `List Int`. -/

/-- VirtualSlot from src/App.tsx: a slot holds a poem or is empty, plus a
loading flag; Filled means `poem` is present. -/
structure VirtualSlot where
  poem : Option Poem
  isLoading : Bool
deriving DecidableEq, Repr

/-- The poemSource state of App: 'local' | 'hybrid' | 'api'. -/
inductive PoemSource where
  | localDB
  | hybrid
  | api
deriving DecidableEq, Repr

/-- A PoetryDB poem as fetched from the remote service. -/
structure PoetryDBPoem where
  title : String
  author : String
  lines : List String
  linecount : Nat
deriving DecidableEq, Repr

/-- A poem row before the id-defaulting map in loadPoemsIntoSlots/initApp:
remote-converted poems carry no id yet, database rows do. -/
structure RawPoem where
  id : Option Int
  title : String
  author : String
  content : String
deriving DecidableEq, Repr

/-- convertToLocalFormat from src/lib/poetry-api.ts (drops any id; joins the
line array with newlines). -/
def convertToLocalFormat (p : PoetryDBPoem) : RawPoem :=
  { id := none, title := p.title, author := p.author,
    content := String.intercalate "\n" p.lines }

/-- A database row viewed as a raw poem (id present). -/
def Poem.toRaw (p : Poem) : RawPoem :=
  { id := some p.id, title := p.title, author := p.author, content := p.content }

/-- The oracle for one batch fetch: the remote call's outcome and the rows
the local random queries would return, plus the synthesized-id source for
id-less poems.  Which fields are consulted depends on poemSource/isOnline,
mirroring the branches of loadPoemsIntoSlots and getHybridRandomPoems. -/
structure FetchEnv where
  apiOutcome : Except String (List PoetryDBPoem)
  localHalf : List Poem
  localFull : List Poem
  localBatch : List Poem
  synthIds : Nat → Int

/-- getHybridRandomPoems from src/lib/poetry-api.ts: on API success, the
converted API poems followed by a local random draw; the catch block falls
back to a local random draw of the full count.  The function itself never
fails (its try/catch swallows the API error). -/
def getHybridRandomPoems (env : FetchEnv) : List RawPoem :=
  match env.apiOutcome with
  | .ok apiPoems => apiPoems.map convertToLocalFormat ++ env.localHalf.map Poem.toRaw
  | .error _ => env.localFull.map Poem.toRaw

/-- The id-defaulting map `{...poem, id: poem.id || synthesized}` applied to
one poem at position `i` of a fetched batch: a missing id, or the falsy id
0, is replaced by the synthesized one. -/
def assignId (synth : Nat → Int) (i : Nat) (p : RawPoem) : Poem :=
  match p.id with
  | some pid => if pid = 0 then { id := synth i, title := p.title, author := p.author, content := p.content }
                else { id := pid, title := p.title, author := p.author, content := p.content }
  | none => { id := synth i, title := p.title, author := p.author, content := p.content }

/-- The id-defaulting map over a whole batch, indexed from `i`. -/
def assignIds (synth : Nat → Int) : Nat → List RawPoem → List Poem
  | _, [] => []
  | i, p :: ps => assignId synth i p :: assignIds synth (i + 1) ps

/-- The `let newPoems = ...` branch chain of loadPoemsIntoSlots (lines
413-429 of src/App.tsx) for one fetch: hybrid+online uses
getHybridRandomPoems (never fails), api+online propagates a remote failure
to the surrounding catch, otherwise a local random draw is used; the
id-defaulting map is applied to whatever was fetched. -/
def fetchNewPoems (src : PoemSource) (online : Bool) (env : FetchEnv) : Except String (List Poem) :=
  if src = .hybrid ∧ online = true then
    .ok (assignIds env.synthIds 0 (getHybridRandomPoems env))
  else if src = .api ∧ online = true then
    match env.apiOutcome with
    | .ok ps => .ok (assignIds env.synthIds 0 (ps.map convertToLocalFormat))
    | .error e => .error e
  else
    .ok (assignIds env.synthIds 0 (env.localBatch.map Poem.toRaw))

/-- JavaScript Set.add on an insertion-ordered duplicate-free list. -/
def setAdd (s : List Int) (x : Int) : List Int :=
  if x ∈ s then s else s ++ [x]

/-- One step of the currentUsedIds collection loop of loadPoemsIntoSlots
(lines 378-383): a slot contributes its poem's id when the poem is present
and the id is truthy (nonzero). -/
def slotUsedStep (acc : List Int) (sl : VirtualSlot) : List Int :=
  match sl.poem with
  | some p => if p.id ≠ 0 then setAdd acc p.id else acc
  | none => acc

/-- The ids loadPoemsIntoSlots collects from the current slots before
filling (its stale-state guard). -/
def slotUsedIds (slots : List VirtualSlot) : List Int :=
  slots.foldl slotUsedStep []

/-- Whether some pending update already holds a poem with this id
(the `Object.values(updates).some(slot => slot.poem?.id === poem.id)`
check). -/
def updatesHasId (updates : List (Nat × VirtualSlot)) (pid : Int) : Bool :=
  updates.any fun kv =>
    match kv.2.poem with
    | some q => q.id == pid
    | none => false

/-- Assignment `updates[slotIndex] = v` on the JS object modelled as an
association list: replace the entry if the key exists, else append. -/
def mapSet (m : List (Nat × VirtualSlot)) (k : Nat) (v : VirtualSlot) : List (Nat × VirtualSlot) :=
  if m.any (fun kv => kv.1 == k) then
    m.map fun kv => if kv.1 == k then (k, v) else kv
  else
    m ++ [(k, v)]

/-- The `availablePoems.find(...)` / `newPoems.find(...)` call: the first
poem whose id is neither among the used ids nor pending in updates. -/
def findAvail (pool : List Poem) (used : List Int) (updates : List (Nat × VirtualSlot)) : Option Poem :=
  pool.find? fun p => !(decide (p.id ∈ used)) && !(updatesHasId updates p.id)

/-- The mutable locals of one run of loadPoemsIntoSlots. -/
structure FillAcc where
  updates : List (Nat × VirtualSlot)
  used : List Int
  poemsToAdd : List Poem
  fetchCount : Nat
deriving Repr

/-- The skip test `virtualSlots[slotIndex]?.poem ||
virtualSlots[slotIndex]?.isLoading` (an out-of-range index reads as not
taken, as in JS). -/
def slotTaken (slots : List VirtualSlot) (i : Nat) : Bool :=
  match slots.get? i with
  | some sl => sl.poem.isSome || sl.isLoading
  | none => false

/-- One iteration of the `for (const slotIndex of slotIndices)` loop of
loadPoemsIntoSlots (lines 385-448 of src/App.tsx): skip taken slots; place
the first available pool poem; otherwise fetch a batch (consuming the next
oracle entry), append it to poemsToAdd, and place a fresh poem from it or a
placeholder; a fetch failure is caught and leaves a placeholder. -/
def fillSlotStep (src : PoemSource) (online : Bool) (slots : List VirtualSlot)
    (pool : List Poem) (envs : Nat → FetchEnv) (acc : FillAcc) (i : Nat) : FillAcc :=
  if slotTaken slots i then acc
  else
    match findAvail pool acc.used acc.updates with
    | some p =>
        { acc with
          updates := mapSet acc.updates i { poem := some p, isLoading := false }
          used := setAdd acc.used p.id }
    | none =>
        match fetchNewPoems src online (envs acc.fetchCount) with
        | .error _ =>
            { acc with
              updates := mapSet acc.updates i { poem := none, isLoading := false }
              fetchCount := acc.fetchCount + 1 }
        | .ok newPoems =>
            match findAvail newPoems acc.used acc.updates with
            | some fresh =>
                { updates := mapSet acc.updates i { poem := some fresh, isLoading := false }
                  used := setAdd acc.used fresh.id
                  poemsToAdd := acc.poemsToAdd ++ newPoems
                  fetchCount := acc.fetchCount + 1 }
            | none =>
                { updates := mapSet acc.updates i { poem := none, isLoading := false }
                  used := acc.used
                  poemsToAdd := acc.poemsToAdd ++ newPoems
                  fetchCount := acc.fetchCount + 1 }

/-- Applying the collected updates to the slot array
(`newSlots[parseInt(index)] = slot`). -/
def applyUpdates (slots : List VirtualSlot) (updates : List (Nat × VirtualSlot)) : List VirtualSlot :=
  updates.foldl (fun sl kv => sl.set kv.1 kv.2) slots

/-- The App component state the claims are about. -/
structure AppState where
  virtualSlots : List VirtualSlot
  currentIndex : Nat
  usedPoemIds : List Int
  availablePoems : List Poem
  isOnline : Bool
  poemSource : PoemSource

/-- One whole run of loadPoemsIntoSlots over the given slot indices: loop
over the indices, then append poemsToAdd to availablePoems, replace
usedPoemIds with the collected set, and apply the slot updates. -/
def fillPass (s : AppState) (slotIndices : List Nat) (envs : Nat → FetchEnv) : AppState :=
  let acc := slotIndices.foldl
    (fillSlotStep s.poemSource s.isOnline s.virtualSlots s.availablePoems envs)
    { updates := [], used := slotUsedIds s.virtualSlots, poemsToAdd := [], fetchCount := 0 }
  { s with
    virtualSlots := applyUpdates s.virtualSlots acc.updates
    usedPoemIds := acc.used
    availablePoems := s.availablePoems ++ acc.poemsToAdd }

/-- CLEANUP_DISTANCE from src/App.tsx. -/
def CLEANUP_DISTANCE : Nat := 20

/-- The slot-clearing loop of cleanupDistantSlots, position-indexed from
`i`: a filled slot farther than CLEANUP_DISTANCE from the cursor is
emptied. -/
def cleanupFrom (pos : Nat) : Nat → List VirtualSlot → List VirtualSlot
  | _, [] => []
  | i, sl :: rest =>
      (if CLEANUP_DISTANCE < ((i : Int) - (pos : Int)).natAbs ∧ sl.poem.isSome then
        ({ poem := none, isLoading := false } : VirtualSlot)
      else sl) :: cleanupFrom pos (i + 1) rest

/-- The usedPoemIds recomputation of cleanupDistantSlots: ids of filled
slots (with truthy id) within CLEANUP_DISTANCE of the cursor, read from the
pre-cleanup slot array as the source closure does. -/
def cleanupUsedFrom (pos : Nat) : Nat → List VirtualSlot → List Int → List Int
  | _, [], acc => acc
  | i, sl :: rest, acc =>
      cleanupUsedFrom pos (i + 1) rest
        (match sl.poem with
         | some p =>
            if p.id ≠ 0 ∧ ((i : Int) - (pos : Int)).natAbs ≤ CLEANUP_DISTANCE then
              setAdd acc p.id
            else acc
         | none => acc)

/-- cleanupDistantSlots from src/App.tsx, lines 471-499. -/
def cleanupPass (s : AppState) (pos : Nat) : AppState :=
  { s with
    virtualSlots := cleanupFrom pos 0 s.virtualSlots
    usedPoemIds := cleanupUsedFrom pos 0 s.virtualSlots [] }

/-- VIRTUAL_SIZE from src/App.tsx. -/
def VIRTUAL_SIZE : Nat := 2000

/-- LOAD_AHEAD from src/App.tsx. -/
def LOAD_AHEAD : Nat := 5

/-- LOAD_BEHIND from src/App.tsx. -/
def LOAD_BEHIND : Nat := 3

/-- The slotsToLoad computation of handlePageSelected (lines 508-530 of
src/App.tsx): the cursor position if not taken, then the next LOAD_AHEAD
positions below VIRTUAL_SIZE that are not taken, then the previous
LOAD_BEHIND nonnegative positions that are not taken, in that order. -/
def computeSlotsToLoad (slots : List VirtualSlot) (p : Nat) : List Nat :=
  (if ¬ slotTaken slots p then [p] else []) ++
  ((List.range' (p + 1) LOAD_AHEAD).filter fun i =>
    decide (i < VIRTUAL_SIZE) && !(slotTaken slots i)) ++
  ((List.range' 1 LOAD_BEHIND).filterMap fun k =>
    if k ≤ p ∧ slotTaken slots (p - k) = false then some (p - k) else none)

/-- STARTER_POEMS from src/App.tsx: the five embedded poems with ids -1..-5
(texts carried verbatim; no claim depends on the text fields). -/
def STARTER_POEMS : List Poem :=
  [{ id := -1, title := "The Road Not Taken", author := "Robert Frost",
     content := "Two roads diverged in a yellow wood,\nAnd sorry I could not travel both\nAnd be one traveler, long I stood\nAnd looked down one as far as I could\nTo where it bent in the undergrowth;\n\nThen took the other, as just as fair,\nAnd having perhaps the better claim,\nBecause it was grassy and wanted wear;\nThough as for that the passing there\nHad worn them really about the same,\n\nAnd both that morning equally lay\nIn leaves no step had trodden black.\nOh, I kept the first for another day!\nYet knowing how way leads on to way,\nI doubted if I should ever be back.\n\nI shall be telling this with a sigh\nSomewhere ages and ages hence:\nTwo roads diverged in a wood, and I—\nI took the one less traveled by,\nAnd that has made all the difference." },
   { id := -2, title := "Fire and Ice", author := "Robert Frost",
     content := "Some say the world will end in fire,\nSome say in ice.\nFrom what I've tasted of desire\nI hold with those who favor fire.\nBut if it had to perish twice,\nI think I know enough of hate\nTo say that for destruction ice\nIs also great\nAnd would suffice." },
   { id := -3, title := "Stopping by Woods on a Snowy Evening", author := "Robert Frost",
     content := "Whose woods these are I think I know.\nHis house is in the village though;\nHe will not see me stopping here\nTo watch his woods fill up with snow.\n\nMy little horse must think it queer\nTo stop without a farmhouse near\nBetween the woods and frozen lake\nThe darkest evening of the year.\n\nHe gives his harness bells a shake\nTo ask if there is some mistake.\nThe only other sound's the sweep\nOf easy wind and downy flake.\n\nThe woods are lovely, dark and deep,\nBut I have promises to keep,\nAnd miles to go before I sleep,\nAnd miles to go before I sleep." },
   { id := -4, title := "Nothing Gold Can Stay", author := "Robert Frost",
     content := "Nature's first green is gold,\nHer hardest hue to hold.\nHer early leaf's a flower;\nBut only so an hour.\nThen leaf subsides to leaf.\nSo Eden sank to grief,\nSo dawn goes down to day.\nNothing gold can stay." },
   { id := -5, title := "The Guest House", author := "Rumi",
     content := "This being human is a guest house.\nEvery morning a new arrival.\n\nA joy, a depression, a meanness,\nsome momentary awareness comes\nas an unexpected visitor.\n\nWelcome and entertain them all!\nEven if they're a crowd of sorrows,\nwho violently sweep your house\nempty of its furniture,\nstill, treat each guest honorably.\nHe may be clearing you out\nfor some new delight.\n\nThe dark thought, the shame, the malice,\nmeet them at the door laughing,\nand invite them in.\n\nBe grateful for whoever comes,\nbecause each has been sent\nas a guide from beyond." }]

/-- initVirtualSlots from src/App.tsx (lines 292-310): slot `index` holds
the shuffled starter poem at `index` while one exists, all later slots are
empty. -/
def initSlots (shuffled : List Poem) : List VirtualSlot :=
  (List.range' 0 VIRTUAL_SIZE).map fun index =>
    match shuffled[index]? with
    | some p => { poem := some p, isLoading := false }
    | none => { poem := none, isLoading := false }

/-- The App state initVirtualSlots leaves behind, given the shuffle's
output (the source shuffles STARTER_POEMS with a random comparator, i.e.
produces some permutation of it). -/
def initState (shuffled : List Poem) : AppState :=
  { virtualSlots := initSlots shuffled
    currentIndex := 0
    usedPoemIds := (shuffled.map Poem.id).foldl setAdd []
    availablePoems := shuffled
    isOnline := false
    poemSource := .localDB }

/-- The synthesized-id oracle never returns the falsy id 0: in the source
the synthesized ids are nonempty strings such as `dynamic_..._Date.now()`,
which are always truthy. -/
def GoodEnvs (envs : Nat → FetchEnv) : Prop :=
  ∀ n k, (envs n).synthIds k ≠ 0

/-- The states of the virtual slot array reachable from initialization by
any sequence of fill passes and cleanup passes.  A fill pass runs over
slot indices that are in range and pairwise distinct, which is what
handlePageSelected always passes (its current/ahead/behind groups are
disjoint and bounds-checked against VIRTUAL_SIZE and 0). -/
inductive Reachable : AppState → Prop
  | init (shuffled : List Poem) (hperm : shuffled.Perm STARTER_POEMS) :
      Reachable (initState shuffled)
  | fill (s : AppState) (idx : List Nat) (envs : Nat → FetchEnv)
      (hs : Reachable s) (hnd : idx.Nodup)
      (hlt : ∀ i ∈ idx, i < s.virtualSlots.length)
      (he : GoodEnvs envs) :
      Reachable (fillPass s idx envs)
  | cleanup (s : AppState) (pos : Nat) (hs : Reachable s) :
      Reachable (cleanupPass s pos)

/-- The availablePoems merge of initApp (lines 351-356 of src/App.tsx):
the background-loaded batch is filtered against the five starter ids only,
then appended. -/
def initAppMergePool (prev newPoems : List Poem) : List Poem :=
  prev ++ newPoems.filter fun p => !(decide (p.id ∈ STARTER_POEMS.map Poem.id))

/-! ## Fill-policy, failure-handling and pool lemmas -/

/-- Membership in a JS Set after an add. -/
theorem mem_setAdd {s : List Int} {x y : Int} : y ∈ setAdd s x ↔ y ∈ s ∨ y = x := by
  unfold setAdd
  split
  · constructor
    · exact Or.inl
    · rintro (h | rfl) <;> assumption
  · simp [List.mem_append]

/-- mapSet introduces no key other than the assigned one. -/
theorem mapSet_keys (m : List (Nat × VirtualSlot)) (k : Nat) (v : VirtualSlot) :
    ∀ kv ∈ mapSet m k v, kv.1 ∈ m.map Prod.fst ∨ kv.1 = k := by
  intro kv hkv
  unfold mapSet at hkv
  split at hkv
  · rcases List.mem_map.1 hkv with ⟨kv', hm, he⟩
    by_cases hk : kv'.1 == k
    · rw [if_pos hk] at he
      right
      rw [← he]
    · rw [if_neg hk] at he
      left
      rw [← he]
      exact List.mem_map_of_mem _ hm
  · rcases List.mem_append.1 hkv with h | h
    · left
      exact List.mem_map_of_mem _ h
    · right
      simp only [List.mem_singleton] at h
      rw [h]

/-- One fill-loop iteration touches no slot index other than its own. -/
theorem fillSlotStep_keys (src : PoemSource) (online : Bool) (slots : List VirtualSlot)
    (pool : List Poem) (envs : Nat → FetchEnv) (acc : FillAcc) (i : Nat) :
    ∀ kv ∈ (fillSlotStep src online slots pool envs acc i).updates,
      kv.1 ∈ acc.updates.map Prod.fst ∨ kv.1 = i := by
  intro kv h
  unfold fillSlotStep at h
  split at h
  · exact Or.inl (List.mem_map_of_mem _ h)
  · split at h
    · exact mapSet_keys _ _ _ kv h
    · split at h
      · exact mapSet_keys _ _ _ kv h
      · split at h <;> exact mapSet_keys _ _ _ kv h

/-- The whole fill loop only accumulates updates at the passed indices. -/
theorem fillFold_keys (src : PoemSource) (online : Bool) (slots : List VirtualSlot)
    (pool : List Poem) (envs : Nat → FetchEnv) :
    ∀ (idx : List Nat) (acc : FillAcc),
      ∀ kv ∈ (idx.foldl (fillSlotStep src online slots pool envs) acc).updates,
        kv.1 ∈ acc.updates.map Prod.fst ∨ kv.1 ∈ idx := by
  intro idx
  induction idx with
  | nil =>
    intro acc kv h
    exact Or.inl (List.mem_map_of_mem _ h)
  | cons i rest ih =>
    intro acc kv h
    rw [List.foldl_cons] at h
    rcases ih _ kv h with h1 | h1
    · rcases List.mem_map.1 h1 with ⟨kv', hm, he⟩
      rcases fillSlotStep_keys src online slots pool envs acc i kv' hm with h2 | h2
      · exact Or.inl (he ▸ h2)
      · right
        rw [← he, h2]
        exact List.mem_cons_self _ _
    · exact Or.inr (List.mem_cons_of_mem _ h1)

/-- Applying updates that avoid an index leaves that position unchanged. -/
theorem applyUpdates_getElem?_of_notmem :
    ∀ (us : List (Nat × VirtualSlot)) (slots : List VirtualSlot) (j : Nat),
      (∀ kv ∈ us, kv.1 ≠ j) → (applyUpdates slots us)[j]? = slots[j]? := by
  intro us
  induction us with
  | nil => intro slots j _; rfl
  | cons kv rest ih =>
    intro slots j h
    unfold applyUpdates at ih ⊢
    rw [List.foldl_cons]
    rw [ih _ j fun kv' hm => h kv' (List.mem_cons_of_mem _ hm)]
    exact List.getElem?_set_ne (h kv (List.mem_cons_self _ _))

/-- A fill pass leaves every slot whose index it was not given unchanged. -/
theorem fillPass_untouched (s : AppState) (idx : List Nat) (envs : Nat → FetchEnv)
    (j : Nat) (hj : j ∉ idx) :
    (fillPass s idx envs).virtualSlots[j]? = s.virtualSlots[j]? := by
  unfold fillPass
  apply applyUpdates_getElem?_of_notmem
  intro kv hkv
  rcases fillFold_keys s.poemSource s.isOnline s.virtualSlots s.availablePoems envs idx _ kv
    hkv with h | h
  · simp at h
  · intro e
    exact hj (e ▸ h)

/-- Membership in a step-one range'. -/
theorem mem_range'_iff (s n x : Nat) : x ∈ List.range' s n ↔ s ≤ x ∧ x < s + n := by
  rw [List.mem_range']
  constructor
  · rintro ⟨i, hi, rfl⟩
    omega
  · intro h
    exact ⟨x - s, by omega, by omega⟩

/-- A step-one range' is strictly increasing. -/
theorem pairwise_lt_range'_own : ∀ (n s : Nat), (List.range' s n).Pairwise (· < ·)
  | 0, _ => .nil
  | n + 1, s => by
    rw [List.range'_succ]
    exact List.Pairwise.cons
      (fun x hx => by have := (mem_range'_iff _ _ _).1 hx; omega)
      (pairwise_lt_range'_own n (s + 1))

/-- The queued indices are exactly the non-taken slots of the clamped
target range around the cursor. -/
theorem computeSlotsToLoad_mem (slots : List VirtualSlot) (p j : Nat) :
    j ∈ computeSlotsToLoad slots p ↔
      slotTaken slots j = false ∧
      (j = p ∨ (p < j ∧ j ≤ p + LOAD_AHEAD ∧ j < VIRTUAL_SIZE) ∨
        (j < p ∧ p ≤ j + LOAD_BEHIND)) := by
  unfold computeSlotsToLoad
  simp only [List.mem_append, List.mem_filter, List.mem_filterMap, mem_range'_iff,
    Bool.and_eq_true, decide_eq_true_eq, Bool.not_eq_true']
  constructor
  · rintro ((h | h) | h)
    · split at h
      · simp only [List.mem_singleton] at h
        subst h
        rename_i hp
        simp only [Bool.not_eq_true] at hp
        exact ⟨hp, Or.inl rfl⟩
      · simp at h
    · obtain ⟨⟨h1, h2⟩, h3, h4⟩ := h
      exact ⟨h4, Or.inr (Or.inl ⟨by omega, by omega, h3⟩)⟩
    · rcases h with ⟨k, hk, he⟩
      split at he
      · rename_i hcond
        injection he with he
        subst he
        exact ⟨hcond.2, Or.inr (Or.inr ⟨by omega, by omega⟩)⟩
      · exact absurd he (by simp)
  · rintro ⟨htaken, (rfl | h | h)⟩
    · left; left
      rw [if_pos]
      · exact List.mem_singleton.2 rfl
      · simp [htaken]
    · obtain ⟨h1, h2, h3⟩ := h
      left; right
      exact ⟨⟨by omega, by omega⟩, h3, htaken⟩
    · obtain ⟨h1, h2⟩ := h
      right
      refine ⟨p - j, ⟨by omega, by omega⟩, ?_⟩
      have hj : p - (p - j) = j := by omega
      rw [hj, if_pos ⟨by omega, htaken⟩]

/-- The queue's actual order: the cursor slot first, then the ahead group
in increasing order, then the behind group in decreasing order. -/
theorem computeSlotsToLoad_order (slots : List VirtualSlot) (p : Nat) :
    ∃ ahead behind,
      computeSlotsToLoad slots p =
        (if ¬ slotTaken slots p then [p] else []) ++ ahead ++ behind ∧
      ahead.Pairwise (· < ·) ∧ (∀ x ∈ ahead, p < x) ∧
      behind.Pairwise (fun a b => b < a) ∧ (∀ x ∈ behind, x < p) := by
  refine ⟨_, _, rfl, ?_, ?_, ?_, ?_⟩
  · exact (pairwise_lt_range'_own LOAD_AHEAD (p + 1)).filter _
  · intro x hx
    have := (mem_range'_iff _ _ _).1 (List.mem_of_mem_filter hx)
    omega
  · refine List.Pairwise.filterMap _ ?_ (pairwise_lt_range'_own LOAD_BEHIND 1)
    intro k k' hkk b hb b' hb'
    simp only [Option.mem_def] at hb hb'
    split at hb
    · split at hb'
      · injection hb with hb
        injection hb' with hb'
        rename_i hc hc'
        omega
      · exact absurd hb' (by simp)
    · exact absurd hb (by simp)
  · intro x hx
    rcases List.mem_filterMap.1 hx with ⟨k, hk, he⟩
    have hk2 := (mem_range'_iff _ _ _).1 hk
    split at he
    · injection he with he
      rename_i hc
      omega
    · exact absurd he (by simp)

/-- A local database row used by the concrete fill scenarios. -/
def poemA : Poem := { id := 100, title := "Local A", author := "Anon", content := "b" }

/-- A small concrete slot array: the five starter poems at positions 0-4
(as initVirtualSlots places them under the identity shuffle) and three
empty slots, enough to exercise the fill passes concretely. -/
def smallSlots : List VirtualSlot :=
  STARTER_POEMS.map (fun p => { poem := some p, isLoading := false }) ++
    List.replicate 3 { poem := none, isLoading := false }

/-- A concrete post-initialization state in local mode over `smallSlots`. -/
def starterState : AppState :=
  { virtualSlots := smallSlots
    currentIndex := 0
    usedPoemIds := (STARTER_POEMS.map Poem.id).foldl setAdd []
    availablePoems := STARTER_POEMS
    isOnline := false
    poemSource := .localDB }

/-- The same state after switching to hybrid mode with the adapter healthy. -/
def hybridState : AppState := { starterState with isOnline := true, poemSource := .hybrid }

/-- The same state after switching to remote (api) mode with the adapter
healthy. -/
def apiState : AppState := { starterState with isOnline := true, poemSource := .api }

/-- An oracle in which the remote fetch fails and the local random draws
return the row `poemA`. -/
def failEnv : FetchEnv :=
  { apiOutcome := .error "NetworkError", localHalf := [], localFull := [poemA],
    localBatch := [poemA], synthIds := fun _ => -1000 }

/-- An oracle for local mode whose random draw returns the row `poemA`
every time (random sampling may legitimately repeat rows across calls). -/
def env9 : FetchEnv :=
  { apiOutcome := .error "down", localHalf := [], localFull := [],
    localBatch := [poemA], synthIds := fun _ => -1000 }

/-- C6 counterexample: from the initial state, a cursor move to 11 queues
[11, 12, 13, 14, 15, 16, 10, 9, 8] - the cursor, the ahead group ascending,
then the behind group - which is not ordered nearest-to-cursor-first: slot
16 (distance 5) is queued before slot 10 (distance 1). -/
theorem c6_fill_policy_cex :
    computeSlotsToLoad (initState STARTER_POEMS).virtualSlots 11 =
      [11, 12, 13, 14, 15, 16, 10, 9, 8] ∧
    ¬ ((computeSlotsToLoad (initState STARTER_POEMS).virtualSlots 11).Pairwise
        fun a b => ((a : Int) - 11).natAbs ≤ ((b : Int) - 11).natAbs) := by
  constructor
  · decide
  · decide

/-- C6 amended: on a cursor move to p the queued slots are exactly the
non-Filled, non-Loading slots of the clamped target range (the cursor, up
to LOAD_AHEAD ahead below VIRTUAL_SIZE, up to LOAD_BEHIND behind at or
above 0); the order is the cursor first, then the ahead group ascending,
then the behind group descending (not nearest-to-cursor-first); and the
fill pass leaves every slot outside the target range unchanged. -/
theorem c6_fill_policy_amended (s : AppState) (p j : Nat) (envs : Nat → FetchEnv) :
    (j ∈ computeSlotsToLoad s.virtualSlots p ↔
      slotTaken s.virtualSlots j = false ∧
      (j = p ∨ (p < j ∧ j ≤ p + LOAD_AHEAD ∧ j < VIRTUAL_SIZE) ∨
        (j < p ∧ p ≤ j + LOAD_BEHIND))) ∧
    (∃ ahead behind,
      computeSlotsToLoad s.virtualSlots p =
        (if ¬ slotTaken s.virtualSlots p then [p] else []) ++ ahead ++ behind ∧
      ahead.Pairwise (· < ·) ∧ (∀ x ∈ ahead, p < x) ∧
      behind.Pairwise (fun a b => b < a) ∧ (∀ x ∈ behind, x < p)) ∧
    ((j + LOAD_BEHIND < p ∨ p + LOAD_AHEAD < j) →
      (fillPass s (computeSlotsToLoad s.virtualSlots p) envs).virtualSlots[j]? =
        s.virtualSlots[j]?) := by
  refine ⟨computeSlotsToLoad_mem _ p j, computeSlotsToLoad_order _ p, fun hout => ?_⟩
  apply fillPass_untouched
  intro hmem
  rcases (computeSlotsToLoad_mem _ p j).1 hmem with ⟨_, (rfl | h | h)⟩ <;> omega

/-- Witness for C6 amended at the concrete local-mode state, cursor
position 2 and outside slot 30. -/
theorem c6_fill_policy_amended_witness :
    (30 ∈ computeSlotsToLoad starterState.virtualSlots 2 ↔
      slotTaken starterState.virtualSlots 30 = false ∧
      (30 = 2 ∨ (2 < 30 ∧ 30 ≤ 2 + LOAD_AHEAD ∧ 30 < VIRTUAL_SIZE) ∨
        (30 < 2 ∧ 2 ≤ 30 + LOAD_BEHIND))) ∧
    (∃ ahead behind,
      computeSlotsToLoad starterState.virtualSlots 2 =
        (if ¬ slotTaken starterState.virtualSlots 2 then [2] else []) ++ ahead ++ behind ∧
      ahead.Pairwise (· < ·) ∧ (∀ x ∈ ahead, 2 < x) ∧
      behind.Pairwise (fun a b => b < a) ∧ (∀ x ∈ behind, x < 2)) ∧
    ((fillPass starterState (computeSlotsToLoad starterState.virtualSlots 2)
        (fun _ => env9)).virtualSlots[30]? = starterState.virtualSlots[30]?) :=
  ⟨(c6_fill_policy_amended starterState 2 30 (fun _ => env9)).1,
   (c6_fill_policy_amended starterState 2 30 (fun _ => env9)).2.1,
   (c6_fill_policy_amended starterState 2 30 (fun _ => env9)).2.2 (Or.inr (by decide))⟩

/-- C7 counterexample: with the remote fetch failing, a hybrid-mode fill
leaves the adapter-health flag untouched (isOnline stays true, nothing is
marked degraded), and a remote-mode (api) fill does not fall back to the
local corpus: the slot keeps its placeholder and the pool gains nothing. -/
theorem c7_remote_failure_cex :
    (fillPass hybridState [5] (fun _ => failEnv)).isOnline = true ∧
    ((fillPass apiState [5] (fun _ => failEnv)).virtualSlots[5]?).bind VirtualSlot.poem =
      none ∧
    (fillPass apiState [5] (fun _ => failEnv)).availablePoems.map Poem.id =
      STARTER_POEMS.map Poem.id := by
  refine ⟨by decide, by decide, by decide⟩

/-- C7 amended: a remote fetch failure during a fill never propagates (the
pass is total and only rewrites slots, the pool and the used-id set; the
adapter flags are never written by a fill, so no degraded marking happens
there - only the initial background load does that); in Hybrid mode the
failed attempt falls back to a local random draw, as the concrete scenario
shows; in api mode the caught failure leaves the slot's placeholder. -/
theorem c7_remote_failure_amended :
    (∀ (s : AppState) (idx : List Nat) (envs : Nat → FetchEnv),
      (fillPass s idx envs).isOnline = s.isOnline ∧
      (fillPass s idx envs).poemSource = s.poemSource) ∧
    (((fillPass hybridState [5] (fun _ => failEnv)).virtualSlots[5]?).bind VirtualSlot.poem =
      some poemA) ∧
    (∀ (env : FetchEnv) (e : String), env.apiOutcome = .error e →
      getHybridRandomPoems env = env.localFull.map Poem.toRaw) := by
  refine ⟨fun s idx envs => ⟨rfl, rfl⟩, by decide, fun env e he => ?_⟩
  unfold getHybridRandomPoems
  rw [he]

/-- Witness for C7 amended: its universally quantified parts instantiated
at the concrete failing-fetch oracle. -/
theorem c7_remote_failure_amended_witness :
    ((fillPass starterState [] (fun _ => env9)).isOnline = starterState.isOnline) ∧
    getHybridRandomPoems failEnv = failEnv.localFull.map Poem.toRaw :=
  ⟨(c7_remote_failure_amended.1 starterState [] (fun _ => env9)).1,
   c7_remote_failure_amended.2.2 failEnv "NetworkError" rfl⟩

/-- C9 counterexample: two fill passes whose local random draws both return
the row with id 100 leave the pool holding that id twice - the batch append
does not drop items whose id already exists in the pool. -/
theorem c9_pool_dedup_cex :
    (((fillPass (fillPass starterState [5] (fun _ => env9)) [6]
        (fun _ => env9)).availablePoems.map Poem.id).count 100) = 2 := by
  decide

/-- C9 amended: a fill pass appends its fetched batches to the pool as they
are (append-only, no id-based dropping), and the initial background load
filters only the five starter ids, so any other already-present id passes
the filter; the pool can therefore hold two entries with the same id, and
uniqueness is enforced at slot-fill time instead. -/
theorem c9_pool_dedup_amended :
    (∀ (s : AppState) (idx : List Nat) (envs : Nat → FetchEnv),
      ∃ tail, (fillPass s idx envs).availablePoems = s.availablePoems ++ tail) ∧
    ((initAppMergePool STARTER_POEMS [poemA, poemA]).map Poem.id =
      (STARTER_POEMS ++ [poemA, poemA]).map Poem.id) :=
  ⟨fun s idx envs => ⟨_, rfl⟩, by decide⟩

/-! ## Slot-uniqueness invariant (claim C1) -/



/-- The poem occupying slot `i`, when the slot exists and is Filled. -/
def filledAt (slots : List VirtualSlot) (i : Nat) : Option Poem :=
  (slots.get? i).bind VirtualSlot.poem

/-- No item identifier occupies more than one Filled slot: distinct
positions never hold poems with the same id. -/
def SlotsOK (slots : List VirtualSlot) : Prop :=
  ∀ (i j : Nat) (p q : Poem), i ≠ j →
    filledAt slots i = some p → filledAt slots j = some q → p.id ≠ q.id

/-- Every Filled slot's id is truthy (nonzero); needed because the
source's used-id collection skips falsy ids. -/
def SlotsNonzero (slots : List VirtualSlot) : Prop :=
  ∀ (i : Nat) (p : Poem), filledAt slots i = some p → p.id ≠ 0

/-- Every pool entry's id is truthy (nonzero). -/
def PoolNonzero (pool : List Poem) : Prop := ∀ p ∈ pool, p.id ≠ 0

/-- The inductive invariant: filled ids pairwise distinct, and all slot
and pool ids truthy. -/
def StateInv (s : AppState) : Prop :=
  SlotsOK s.virtualSlots ∧ SlotsNonzero s.virtualSlots ∧ PoolNonzero s.availablePoems

/-- The used-id fold only grows the accumulator. -/
theorem mem_foldl_slotUsed_mono :
    ∀ (l : List VirtualSlot) (acc : List Int) (x : Int),
      x ∈ acc → x ∈ l.foldl slotUsedStep acc := by
  intro l
  induction l with
  | nil => exact fun acc x h => h
  | cons sl rest ih =>
    intro acc x h
    rw [List.foldl_cons]
    apply ih
    unfold slotUsedStep
    cases hsl : sl.poem with
    | none => exact h
    | some p =>
      show x ∈ if p.id ≠ 0 then setAdd acc p.id else acc
      split
      · exact mem_setAdd.2 (Or.inl h)
      · exact h

/-- The used-id fold records every nonzero filled id it passes. -/
theorem mem_foldl_slotUsed :
    ∀ (l : List VirtualSlot) (acc : List Int) (sl : VirtualSlot) (p : Poem),
      sl ∈ l → sl.poem = some p → p.id ≠ 0 → p.id ∈ l.foldl slotUsedStep acc := by
  intro l
  induction l with
  | nil => intro acc sl p h; exact absurd h (List.not_mem_nil sl)
  | cons hd rest ih =>
    intro acc sl p hmem hp hnz
    rw [List.foldl_cons]
    rcases List.mem_cons.1 hmem with rfl | hmem'
    · apply mem_foldl_slotUsed_mono
      unfold slotUsedStep
      rw [hp]
      simp only [hnz, if_pos, ne_eq, not_false_eq_true]
      exact mem_setAdd.2 (Or.inr rfl)
    · exact ih _ sl p hmem' hp hnz

/-- Every nonzero id filled anywhere in the slots is collected by
slotUsedIds. -/
theorem filled_mem_slotUsedIds (slots : List VirtualSlot) (i : Nat) (p : Poem)
    (h : filledAt slots i = some p) (hnz : p.id ≠ 0) : p.id ∈ slotUsedIds slots := by
  unfold filledAt at h
  cases hg : slots.get? i with
  | none => rw [hg] at h; exact absurd h (by simp)
  | some sl =>
    rw [hg] at h
    simp only [Option.some_bind] at h
    exact mem_foldl_slotUsed slots [] sl p (List.get?_mem hg) h hnz

/-- What a successful find guarantees: the poem is in the searched list,
its id is not used, and no pending update holds the same id. -/
theorem findAvail_spec {pool : List Poem} {used : List Int}
    {us : List (Nat × VirtualSlot)} {p : Poem}
    (h : findAvail pool used us = some p) :
    p ∈ pool ∧ p.id ∉ used ∧ ∀ kv ∈ us, ∀ q, kv.2.poem = some q → q.id ≠ p.id := by
  unfold findAvail at h
  have hm := List.mem_of_find?_eq_some h
  have hp := List.find?_some h
  simp only [Bool.and_eq_true, Bool.not_eq_true', decide_eq_false_iff_not] at hp
  refine ⟨hm, hp.1, ?_⟩
  intro kv hkv q hq hqe
  have hid : updatesHasId us p.id = true := by
    unfold updatesHasId
    refine List.any_eq_true.2 ⟨kv, hkv, ?_⟩
    rw [hq]
    simp [hqe]
  rw [hp.2] at hid
  exact Bool.false_ne_true hid

/-- The id-defaulting map yields a truthy id when the synthesized ids are
truthy. -/
theorem assignId_nz (synth : Nat → Int) (hs : ∀ n, synth n ≠ 0) (i : Nat) (p : RawPoem) :
    (assignId synth i p).id ≠ 0 := by
  unfold assignId
  cases hp : p.id with
  | none => simpa using hs i
  | some pid =>
    by_cases hz : pid = 0
    · simp only [if_pos hz]
      simpa using hs i
    · simp only [if_neg hz]
      simpa using hz

/-- All ids of an id-defaulted batch are truthy when the synthesized ids
are. -/
theorem assignIds_nz (synth : Nat → Int) (hs : ∀ n, synth n ≠ 0) :
    ∀ (i : Nat) (ps : List RawPoem), ∀ q ∈ assignIds synth i ps, q.id ≠ 0
  | _, [], q, hq => absurd hq (by simp [assignIds])
  | i, p :: ps, q, hq => by
    rw [assignIds] at hq
    rcases List.mem_cons.1 hq with rfl | hmem
    · exact assignId_nz synth hs i p
    · exact assignIds_nz synth hs (i + 1) ps q hmem

/-- Every poem a successful fetch delivers has a truthy id (raw nonzero
ids are kept, all others are synthesized). -/
theorem fetchNewPoems_nz (src : PoemSource) (online : Bool) (env : FetchEnv)
    (hs : ∀ n, env.synthIds n ≠ 0) {ps : List Poem}
    (h : fetchNewPoems src online env = .ok ps) : ∀ q ∈ ps, q.id ≠ 0 := by
  unfold fetchNewPoems at h
  split at h
  · injection h with h
    subst h
    exact assignIds_nz _ hs 0 _
  · split at h
    · split at h
      · injection h with h
        subst h
        exact assignIds_nz _ hs 0 _
      · cases h
    · injection h with h
      subst h
      exact assignIds_nz _ hs 0 _

/-- Key lookup in the updates object. -/
def lookupU (us : List (Nat × VirtualSlot)) (j : Nat) : Option (Nat × VirtualSlot) :=
  us.find? fun kv => kv.1 == j

/-- Lookup misses when no entry carries the key. -/
theorem lookupU_eq_none {us : List (Nat × VirtualSlot)} {j : Nat}
    (h : ∀ kv ∈ us, kv.1 ≠ j) : lookupU us j = none := by
  unfold lookupU
  rw [List.find?_eq_none]
  intro kv hkv
  simpa using h kv hkv

/-- A lookup hit is an entry of the map with the searched key. -/
theorem lookupU_some {us : List (Nat × VirtualSlot)} {j : Nat} {kv : Nat × VirtualSlot}
    (h : lookupU us j = some kv) : kv ∈ us ∧ kv.1 = j := by
  unfold lookupU at h
  exact ⟨List.mem_of_find?_eq_some h, by simpa using List.find?_some h⟩

/-- Assigning a fresh key appends the entry. -/
theorem mapSet_eq_append (m : List (Nat × VirtualSlot)) (k : Nat) (v : VirtualSlot)
    (h : ∀ kv ∈ m, kv.1 ≠ k) : mapSet m k v = m ++ [(k, v)] := by
  unfold mapSet
  rw [if_neg]
  intro hc
  rcases List.any_eq_true.1 hc with ⟨kv, hkv, he⟩
  exact h kv hkv (by simpa using he)

/-- Applying updates without an entry for `j` leaves position `j`
unchanged. -/
theorem applyUpdates_get?_none {us : List (Nat × VirtualSlot)} {slots : List VirtualSlot}
    {j : Nat} (h : lookupU us j = none) : (applyUpdates slots us).get? j = slots.get? j := by
  have hkeys : ∀ kv ∈ us, kv.1 ≠ j := by
    intro kv hkv he
    have := List.find?_eq_none.1 h kv hkv
    simp [he] at this
  simp only [List.get?_eq_getElem?]
  exact applyUpdates_getElem?_of_notmem us slots j hkeys

/-- Applying updates with nodup keys writes each entry's value at its key
(when in range). -/
theorem applyUpdates_get?_some {us : List (Nat × VirtualSlot)} :
    ∀ {slots : List VirtualSlot} {j : Nat} {kv : Nat × VirtualSlot},
      (us.map Prod.fst).Nodup → lookupU us j = some kv →
      (applyUpdates slots us).get? j = if j < slots.length then some kv.2 else none := by
  induction us with
  | nil => intro slots j kv _ h; cases h
  | cons kv0 rest ih =>
    intro slots j kv hnd hl
    have hnd' : (rest.map Prod.fst).Nodup := (List.nodup_cons.1 hnd).2
    have hout : kv0.1 ∉ rest.map Prod.fst := (List.nodup_cons.1 hnd).1
    unfold applyUpdates at ih ⊢
    rw [List.foldl_cons]
    by_cases hk : kv0.1 = j
    · have hsome : lookupU (kv0 :: rest) j = some kv0 := by
        unfold lookupU
        rw [List.find?_cons_of_pos]
        simpa using hk
      have hkv : kv = kv0 := by
        rw [hl] at hsome
        exact Option.some_inj.1 hsome
      subst hkv
      have hnone : lookupU rest j = none := by
        apply lookupU_eq_none
        intro kv' hkv' he
        have : kv'.1 = kv.1 := he.trans hk.symm
        exact hout (this ▸ List.mem_map_of_mem Prod.fst hkv')
      have hrest := @applyUpdates_get?_none rest (slots.set kv.1 kv.2) j hnone
      unfold applyUpdates at hrest
      rw [hrest]
      subst hk
      by_cases hlen : kv.1 < slots.length
      · rw [if_pos hlen, List.get?_eq_getElem?]
        exact List.getElem?_set_self hlen
      · rw [if_neg hlen, List.get?_eq_getElem?, List.getElem?_eq_none]
        rw [List.length_set]
        omega
    · have hrest : lookupU rest j = some kv := by
        unfold lookupU at hl ⊢
        rwa [List.find?_cons_of_neg] at hl
        simpa using hk
      rw [ih hnd' hrest, List.length_set]

/-- A filled position after applying updates comes either from an update
entry at that key or untouched from the old slots. -/
theorem filledAt_applyUpdates
    {slots : List VirtualSlot} {us : List (Nat × VirtualSlot)} {j : Nat} {p : Poem}
    (hnd : (us.map Prod.fst).Nodup)
    (h : filledAt (applyUpdates slots us) j = some p) :
    (∃ kv ∈ us, kv.1 = j ∧ kv.2.poem = some p) ∨
      (lookupU us j = none ∧ filledAt slots j = some p) := by
  unfold filledAt at h
  cases hl : lookupU us j with
  | some kv =>
    left
    rw [applyUpdates_get?_some hnd hl] at h
    obtain ⟨hmem, hkey⟩ := lookupU_some hl
    refine ⟨kv, hmem, hkey, ?_⟩
    by_cases hlen : j < slots.length
    · rw [if_pos hlen] at h
      simpa using h
    · rw [if_neg hlen] at h
      cases h
  | none =>
    right
    rw [applyUpdates_get?_none hl] at h
    exact ⟨rfl, h⟩

/-- Applying updates whose values are fresh against the collected used ids
and pairwise distinct preserves filled-id distinctness. -/
theorem applyUpdates_SlotsOK
    {slots : List VirtualSlot} {us : List (Nat × VirtualSlot)} {used0 : List Int}
    (hok : SlotsOK slots)
    (hkeys : (us.map Prod.fst).Nodup)
    (hused0 : ∀ (i : Nat) (p : Poem), filledAt slots i = some p → p.id ∈ used0)
    (hfresh : ∀ kv ∈ us, ∀ p : Poem, kv.2.poem = some p → p.id ∉ used0)
    (hdist : ∀ kv ∈ us, ∀ kv' ∈ us, kv.1 ≠ kv'.1 →
      ∀ p p' : Poem, kv.2.poem = some p → kv'.2.poem = some p' → p.id ≠ p'.id) :
    SlotsOK (applyUpdates slots us) := by
  intro i j p q hij hpi hqj
  rcases filledAt_applyUpdates hkeys hpi with ⟨kvi, hkvi, hkeyi, hpoemi⟩ | ⟨_, holdi⟩ <;>
    rcases filledAt_applyUpdates hkeys hqj with ⟨kvj, hkvj, hkeyj, hpoemj⟩ | ⟨_, holdj⟩
  · exact hdist kvi hkvi kvj hkvj (by rw [hkeyi, hkeyj]; exact hij) p q hpoemi hpoemj
  · intro he
    exact hfresh kvi hkvi p hpoemi (he ▸ hused0 j q holdj)
  · intro he
    exact hfresh kvj hkvj q hpoemj (he ▸ hused0 i p holdi)
  · exact hok i j p q hij holdi holdj

/-- Applying updates with truthy filled ids preserves slot-id truthiness. -/
theorem applyUpdates_SlotsNonzero
    {slots : List VirtualSlot} {us : List (Nat × VirtualSlot)}
    (hnz : SlotsNonzero slots)
    (hkeys : (us.map Prod.fst).Nodup)
    (hvnz : ∀ kv ∈ us, ∀ p : Poem, kv.2.poem = some p → p.id ≠ 0) :
    SlotsNonzero (applyUpdates slots us) := by
  intro i p h
  rcases filledAt_applyUpdates hkeys h with ⟨kv, hkv, _, hpoem⟩ | ⟨_, hold⟩
  · exact hvnz kv hkv p hpoem
  · exact hnz i p hold

/-- The loop invariant of loadPoemsIntoSlots, over the collected used-id
set `used0` of the pass's slot snapshot, the pending updates, the growing
used set and the accumulated batch. -/
structure FillInv (used0 : List Int) (us : List (Nat × VirtualSlot))
    (used : List Int) (adds : List Poem) : Prop where
  keysNodup : (us.map Prod.fst).Nodup
  used0_sub : ∀ x ∈ used0, x ∈ used
  val_used : ∀ kv ∈ us, ∀ p : Poem, kv.2.poem = some p → p.id ∈ used
  val_fresh : ∀ kv ∈ us, ∀ p : Poem, kv.2.poem = some p → p.id ∉ used0
  val_nz : ∀ kv ∈ us, ∀ p : Poem, kv.2.poem = some p → p.id ≠ 0
  val_distinct : ∀ kv ∈ us, ∀ kv' ∈ us, kv.1 ≠ kv'.1 →
    ∀ p p' : Poem, kv.2.poem = some p → kv'.2.poem = some p' → p.id ≠ p'.id
  toAdd_nz : ∀ p ∈ adds, p.id ≠ 0

/-- Placing a poem with an unused truthy id into a fresh slot preserves
the loop invariant. -/
theorem FillInv.place {used0 : List Int} {us : List (Nat × VirtualSlot)}
    {used : List Int} {adds : List Poem} (hinv : FillInv used0 us used adds)
    {i : Nat} (hki : ∀ kv ∈ us, kv.1 ≠ i)
    {p : Poem} (hnotused : p.id ∉ used) (hpnz : p.id ≠ 0)
    {newAdds : List Poem} (hnew : ∀ q ∈ newAdds, q.id ≠ 0)
    {adds' : List Poem} (hadds' : adds' = adds ++ newAdds) :
    FillInv used0 (mapSet us i { poem := some p, isLoading := false })
      (setAdd used p.id) adds' := by
  have happ := mapSet_eq_append us i { poem := some p, isLoading := false } hki
  subst hadds'
  constructor
  · simp only [happ, List.map_append]
    rw [List.nodup_append]
    refine ⟨hinv.keysNodup, by simp, ?_⟩
    intro a ha hb
    simp only [List.map_cons, List.map_nil, List.mem_singleton] at hb
    rcases List.mem_map.1 ha with ⟨kv, hkv, he⟩
    exact hki kv hkv (he.symm ▸ hb ▸ rfl)
  · intro x hx
    exact mem_setAdd.2 (Or.inl (hinv.used0_sub x hx))
  · intro kv hkv q hq
    simp only [happ] at hkv
    rcases List.mem_append.1 hkv with h | h
    · exact mem_setAdd.2 (Or.inl (hinv.val_used kv h q hq))
    · simp only [List.mem_singleton] at h
      subst h
      simp only at hq
      injection hq with hq
      subst hq
      exact mem_setAdd.2 (Or.inr rfl)
  · intro kv hkv q hq
    simp only [happ] at hkv
    rcases List.mem_append.1 hkv with h | h
    · exact hinv.val_fresh kv h q hq
    · simp only [List.mem_singleton] at h
      subst h
      simp only at hq
      injection hq with hq
      subst hq
      intro hc
      exact hnotused (hinv.used0_sub _ hc)
  · intro kv hkv q hq
    simp only [happ] at hkv
    rcases List.mem_append.1 hkv with h | h
    · exact hinv.val_nz kv h q hq
    · simp only [List.mem_singleton] at h
      subst h
      simp only at hq
      injection hq with hq
      subst hq
      exact hpnz
  · intro kv hkv kv' hkv' hne q q' hq hq'
    simp only [happ] at hkv hkv'
    rcases List.mem_append.1 hkv with h | h <;> rcases List.mem_append.1 hkv' with h' | h'
    · exact hinv.val_distinct kv h kv' h' hne q q' hq hq'
    · simp only [List.mem_singleton] at h'
      subst h'
      simp only at hq'
      injection hq' with hq'
      subst hq'
      intro he
      exact hnotused (he ▸ hinv.val_used kv h q hq)
    · simp only [List.mem_singleton] at h
      subst h
      simp only at hq
      injection hq with hq
      subst hq
      intro he
      exact hnotused (he.symm ▸ hinv.val_used kv' h' q' hq')
    · simp only [List.mem_singleton] at h h'
      subst h
      subst h'
      exact absurd rfl hne
  · intro q hq
    rcases List.mem_append.1 hq with h | h
    · exact hinv.toAdd_nz q h
    · exact hnew q h

/-- Placing a poem with an unused truthy id into a fresh slot preserves
the loop invariant. -/
theorem FillInv.placeholder {used0 : List Int} {us : List (Nat × VirtualSlot)}
    {used : List Int} {adds : List Poem} (hinv : FillInv used0 us used adds)
    {i : Nat} (hki : ∀ kv ∈ us, kv.1 ≠ i)
    {newAdds : List Poem} (hnew : ∀ q ∈ newAdds, q.id ≠ 0)
    {adds' : List Poem} (hadds' : adds' = adds ++ newAdds) :
    FillInv used0 (mapSet us i { poem := none, isLoading := false }) used adds' := by
  have happ := mapSet_eq_append us i { poem := none, isLoading := false } hki
  subst hadds'
  constructor
  · simp only [happ, List.map_append]
    rw [List.nodup_append]
    refine ⟨hinv.keysNodup, by simp, ?_⟩
    intro a ha hb
    simp only [List.map_cons, List.map_nil, List.mem_singleton] at hb
    rcases List.mem_map.1 ha with ⟨kv, hkv, he⟩
    exact hki kv hkv (he.symm ▸ hb ▸ rfl)
  · exact hinv.used0_sub
  · intro kv hkv q hq
    simp only [happ] at hkv
    rcases List.mem_append.1 hkv with h | h
    · exact hinv.val_used kv h q hq
    · simp only [List.mem_singleton] at h
      subst h
      simp only at hq
      cases hq
  · intro kv hkv q hq
    simp only [happ] at hkv
    rcases List.mem_append.1 hkv with h | h
    · exact hinv.val_fresh kv h q hq
    · simp only [List.mem_singleton] at h
      subst h
      simp only at hq
      cases hq
  · intro kv hkv q hq
    simp only [happ] at hkv
    rcases List.mem_append.1 hkv with h | h
    · exact hinv.val_nz kv h q hq
    · simp only [List.mem_singleton] at h
      subst h
      simp only at hq
      cases hq
  · intro kv hkv kv' hkv' hne q q' hq hq'
    simp only [happ] at hkv hkv'
    rcases List.mem_append.1 hkv with h | h <;> rcases List.mem_append.1 hkv' with h' | h'
    · exact hinv.val_distinct kv h kv' h' hne q q' hq hq'
    · simp only [List.mem_singleton] at h'
      subst h'
      simp only at hq'
      cases hq'
    · simp only [List.mem_singleton] at h
      subst h
      simp only at hq
      cases hq
    · simp only [List.mem_singleton] at h
      subst h
      simp only at hq
      cases hq
  · intro q hq
    rcases List.mem_append.1 hq with h | h
    · exact hinv.toAdd_nz q h
    · exact hnew q h

/-- One fill-loop iteration preserves the loop invariant. -/
theorem fillSlotStep_inv (src : PoemSource) (online : Bool) (slots : List VirtualSlot)
    (pool : List Poem) (envs : Nat → FetchEnv)
    (hpool : PoolNonzero pool) (henv : GoodEnvs envs)
    {used0 : List Int} (acc : FillAcc) (i : Nat)
    (hki : ∀ kv ∈ acc.updates, kv.1 ≠ i)
    (hinv : FillInv used0 acc.updates acc.used acc.poemsToAdd) :
    FillInv used0 (fillSlotStep src online slots pool envs acc i).updates
      (fillSlotStep src online slots pool envs acc i).used
      (fillSlotStep src online slots pool envs acc i).poemsToAdd := by
  unfold fillSlotStep
  split
  · exact hinv
  · split
    · rename_i p hfa
      have hspec := findAvail_spec hfa
      exact hinv.place hki hspec.2.1 (hpool p hspec.1)
        (fun q h => absurd h (List.not_mem_nil q)) (List.append_nil _).symm
    · split
      · exact hinv.placeholder hki
          (fun q h => absurd h (List.not_mem_nil q)) (List.append_nil _).symm
      · rename_i newPoems hf
        have hnew := fetchNewPoems_nz src online (envs acc.fetchCount)
          (fun k => henv acc.fetchCount k) hf
        split
        · rename_i fresh hff
          have hspec := findAvail_spec hff
          exact hinv.place hki hspec.2.1 (hnew fresh hspec.1) hnew rfl
        · exact hinv.placeholder hki hnew rfl

/-- The whole fill loop preserves the loop invariant for nodup slot
indices. -/
theorem fillFold_inv (src : PoemSource) (online : Bool) (slots : List VirtualSlot)
    (pool : List Poem) (envs : Nat → FetchEnv)
    (hpool : PoolNonzero pool) (henv : GoodEnvs envs) {used0 : List Int} :
    ∀ (idx : List Nat) (acc : FillAcc), idx.Nodup →
      (∀ kv ∈ acc.updates, kv.1 ∉ idx) →
      FillInv used0 acc.updates acc.used acc.poemsToAdd →
      FillInv used0 (idx.foldl (fillSlotStep src online slots pool envs) acc).updates
        (idx.foldl (fillSlotStep src online slots pool envs) acc).used
        (idx.foldl (fillSlotStep src online slots pool envs) acc).poemsToAdd := by
  intro idx
  induction idx with
  | nil => intro acc _ _ h; exact h
  | cons i rest ih =>
    intro acc hnd hdisj hinv
    rw [List.foldl_cons]
    have hki : ∀ kv ∈ acc.updates, kv.1 ≠ i := fun kv hkv he =>
      hdisj kv hkv (he ▸ List.mem_cons_self i rest)
    refine ih _ (List.nodup_cons.1 hnd).2 ?_
      (fillSlotStep_inv src online slots pool envs hpool henv acc i hki hinv)
    intro kv hkv hmem
    rcases fillSlotStep_keys src online slots pool envs acc i kv hkv with h | h
    · rcases List.mem_map.1 h with ⟨kv', hkv', he⟩
      exact hdisj kv' hkv' (by rw [he]; exact List.mem_cons_of_mem _ hmem)
    · exact (List.nodup_cons.1 hnd).1 (h ▸ hmem)

/-- A fill pass preserves the state invariant. -/
theorem fillPass_inv (s : AppState) (idx : List Nat) (envs : Nat → FetchEnv)
    (hnd : idx.Nodup) (henv : GoodEnvs envs) (hinv : StateInv s) :
    StateInv (fillPass s idx envs) := by
  obtain ⟨hok, hnz, hpool⟩ := hinv
  have hinit : FillInv (slotUsedIds s.virtualSlots) ([] : List (Nat × VirtualSlot))
      (slotUsedIds s.virtualSlots) ([] : List Poem) :=
    ⟨by simp, fun x h => h, by simp, by simp, by simp, by simp, by simp⟩
  have hfold := fillFold_inv s.poemSource s.isOnline s.virtualSlots s.availablePoems envs
    hpool henv idx
    { updates := [], used := slotUsedIds s.virtualSlots, poemsToAdd := [], fetchCount := 0 }
    hnd (by simp) hinit
  refine ⟨?_, ?_, ?_⟩
  · refine applyUpdates_SlotsOK hok hfold.keysNodup ?_ hfold.val_fresh hfold.val_distinct
    intro i p hf
    exact filled_mem_slotUsedIds _ i p hf (hnz i p hf)
  · exact applyUpdates_SlotsNonzero hnz hfold.keysNodup hfold.val_nz
  · intro p hp
    rcases List.mem_append.1 hp with h | h
    · exact hpool p h
    · exact hfold.toAdd_nz p h

/-- Cleanup only empties slots: whatever stays filled was filled with the
same poem before. -/
theorem cleanupFrom_filledAt (pos : Nat) :
    ∀ (l : List VirtualSlot) (n j : Nat) (p : Poem),
      filledAt (cleanupFrom pos n l) j = some p → filledAt l j = some p := by
  intro l
  induction l with
  | nil => intro n j p h; exact absurd h (by simp [cleanupFrom, filledAt])
  | cons sl rest ih =>
    intro n j p h
    cases j with
    | zero =>
      rw [cleanupFrom] at h
      unfold filledAt at h ⊢
      simp only [List.get?_cons_zero, Option.some_bind] at h ⊢
      by_cases hc : CLEANUP_DISTANCE < ((n : Int) - (pos : Int)).natAbs ∧ sl.poem.isSome
      · rw [if_pos hc] at h
        exact absurd h (by simp)
      · rwa [if_neg hc] at h
    | succ j =>
      rw [cleanupFrom] at h
      unfold filledAt at h ⊢
      simp only [List.get?_cons_succ] at h ⊢
      exact ih (n + 1) j p h

/-- A cleanup pass preserves the state invariant. -/
theorem cleanup_inv (s : AppState) (pos : Nat) (hinv : StateInv s) :
    StateInv (cleanupPass s pos) := by
  obtain ⟨hok, hnz, hpool⟩ := hinv
  refine ⟨?_, ?_, hpool⟩
  · intro i j p q hij hpi hqj
    exact hok i j p q hij (cleanupFrom_filledAt pos _ 0 i p hpi)
      (cleanupFrom_filledAt pos _ 0 j q hqj)
  · intro i p h
    exact hnz i p (cleanupFrom_filledAt pos _ 0 i p h)

/-- Distinct positions of a list with nodup ids hold poems with distinct
ids. -/
theorem nodup_map_get?_ne {l : List Poem} (hnd : (l.map Poem.id).Nodup)
    {i j : Nat} (hij : i ≠ j) {p q : Poem}
    (hi : l[i]? = some p) (hj : l[j]? = some q) : p.id ≠ q.id := by
  rcases List.getElem?_eq_some_iff.1 hi with ⟨hi', hpe⟩
  rcases List.getElem?_eq_some_iff.1 hj with ⟨hj', hqe⟩
  have hi'' : i < (l.map Poem.id).length := by simpa using hi'
  have hj'' : j < (l.map Poem.id).length := by simpa using hj'
  intro he
  apply hij
  apply (@List.Nodup.getElem_inj_iff _ _ hnd i hi'' j hj'').1
  simp only [List.getElem_map]
  rw [hpe, hqe]
  exact he

/-- A filled initial slot holds exactly the shuffled starter poem of its
index. -/
theorem initSlots_filledAt {shuffled : List Poem} {i : Nat} {p : Poem}
    (h : filledAt (initSlots shuffled) i = some p) : shuffled[i]? = some p := by
  unfold filledAt initSlots at h
  rw [List.get?_map] at h
  by_cases hlt : i < VIRTUAL_SIZE
  · have hr : (List.range' 0 VIRTUAL_SIZE).get? i = some i := by
      rw [List.get?_eq_getElem?]
      simpa using List.getElem?_range' 0 1 hlt
    rw [hr] at h
    simp only [Option.map_some', Option.some_bind] at h
    cases hs : shuffled[i]? with
    | none =>
      rw [hs] at h
      exact absurd h (by simp)
    | some q =>
      rw [hs] at h
      obtain rfl : q = p := by simpa using h
      rfl
  · have hnone : (List.range' 0 VIRTUAL_SIZE).get? i = none := by
      rw [List.get?_eq_getElem?, List.getElem?_eq_none]
      simpa using Nat.le_of_not_lt hlt
    rw [hnone] at h
    exact absurd h (by simp)

/-- Initialization establishes the state invariant for any permutation of
the starter poems. -/
theorem init_inv (shuffled : List Poem) (hperm : shuffled.Perm STARTER_POEMS) :
    StateInv (initState shuffled) := by
  have hids : (shuffled.map Poem.id).Nodup := by
    have h2 : (STARTER_POEMS.map Poem.id).Nodup := by decide
    exact ((hperm.map Poem.id).nodup_iff).2 h2
  have hstar : ∀ p ∈ STARTER_POEMS, p.id ≠ 0 := by decide
  refine ⟨?_, ?_, ?_⟩
  · intro i j p q hij hpi hqj
    exact nodup_map_get?_ne hids hij (initSlots_filledAt hpi) (initSlots_filledAt hqj)
  · intro i p h
    have hmem : p ∈ shuffled := List.getElem?_mem (initSlots_filledAt h)
    exact hstar p (hperm.mem_iff.1 hmem)
  · intro p hp
    exact hstar p (hperm.mem_iff.1 hp)

/-- The state invariant holds in every reachable state. -/
theorem reachable_inv : ∀ s : AppState, Reachable s → StateInv s := by
  intro s h
  induction h with
  | init shuffled hperm => exact init_inv shuffled hperm
  | fill s idx envs hs hnd hlt he ih => exact fillPass_inv s idx envs hnd he ih
  | cleanup s pos hs ih => exact cleanup_inv s pos ih

/-- C1: for every reachable state of the virtual slot array (after
initialization and any sequence of fill passes and cleanup passes), no
item identifier occupies more than one Filled slot at the same time. -/
theorem c1_no_duplicate_filled_ids (s : AppState) (h : Reachable s) :
    SlotsOK s.virtualSlots :=
  (reachable_inv s h).1

/-- Witness for C1 at the initial state reached by the identity shuffle. -/
theorem c1_no_duplicate_filled_ids_witness :
    SlotsOK (initState STARTER_POEMS).virtualSlots :=
  c1_no_duplicate_filled_ids (initState STARTER_POEMS)
    (Reachable.init STARTER_POEMS (List.Perm.refl STARTER_POEMS))
